import Mathlib

/-!
Verification of the decision-pipeline core of a prediction-market arbitrage
agent, shallowly embedded from its Rust sources.  Machine floats (`f64`) are
modelled by exact rationals (`ℚ`), the `as i32` float-to-integer cast by
truncation toward zero on `ℚ`, and `u64` timestamps by `ℕ` (whose subtraction
saturates exactly like Rust's `saturating_sub`).
-/

namespace PolySniper

/-- Rust's `as i32` cast of an `f64`: truncation toward zero.  (The saturation
at the `i32` bounds is not modelled; all quantities here are far within range.) -/
def ftrunc (q : ℚ) : ℤ := if 0 ≤ q then ⌊q⌋ else ⌈q⌉

/-- From `src/polymarket/types.rs`, `struct MarketData`.  The `volume_24h`
field does not appear in the struct literal in `types.rs` but is written by
every constructor site (`client.rs`, `sniper.rs`) and read by the filter in
`sniper.rs`, so it is included here. -/
structure MarketData where
  id : String
  question : String
  end_date : Option String
  volume : ℚ
  liquidity : ℚ
  volume_24h : ℚ
  yes_price : ℚ
  no_price : ℚ
  description : Option String
  order_book_imbalance : ℚ
  best_bid : ℚ
  best_ask : ℚ
  asset_ids : List String
deriving DecidableEq, Repr

/-- From `src/polymarket/types.rs`, `struct OrderLevel`. -/
structure OrderLevel where
  price : ℚ
  size : ℚ
deriving DecidableEq, Repr

instance : Inhabited OrderLevel := ⟨⟨0, 0⟩⟩

/-- From `src/polymarket/types.rs`, `struct OrderBook`.  The Rust struct holds
fixed arrays of 50 levels with `bid_count`/`ask_count` marking the active
prefix; the arrays are modelled as lists (indexing `bids[0]` reads the head,
with the `OrderLevel::default()` padding value when the list is empty). -/
structure OrderBook where
  bids : List OrderLevel
  asks : List OrderLevel
  bid_count : ℕ
  ask_count : ℕ
  timestamp : ℕ
deriving DecidableEq, Repr

/-- `OrderBook::best_bid`: `Some(bids[0].price)` when `bid_count > 0`. -/
def OrderBook.best_bid (ob : OrderBook) : Option ℚ :=
  if ob.bid_count > 0 then some (ob.bids.headD default).price else none

/-- `OrderBook::best_ask`: `Some(asks[0].price)` when `ask_count > 0`. -/
def OrderBook.best_ask (ob : OrderBook) : Option ℚ :=
  if ob.ask_count > 0 then some (ob.asks.headD default).price else none

/-- `OrderBook::bid_levels`: the active slice `bids[..bid_count]`. -/
def OrderBook.bid_levels (ob : OrderBook) : List OrderLevel :=
  ob.bids.take ob.bid_count

/-- `OrderBook::ask_levels`: the active slice `asks[..ask_count]`. -/
def OrderBook.ask_levels (ob : OrderBook) : List OrderLevel :=
  ob.asks.take ob.ask_count

/-- `OrderBook::total_bid_liquidity`: sum of sizes over the active bid slice. -/
def OrderBook.total_bid_liquidity (ob : OrderBook) : ℚ :=
  (ob.bid_levels.map OrderLevel.size).sum

/-- `OrderBook::total_ask_liquidity`: sum of sizes over the active ask slice. -/
def OrderBook.total_ask_liquidity (ob : OrderBook) : ℚ :=
  (ob.ask_levels.map OrderLevel.size).sum

/-- From `src/config.rs`, the fields of `ArbitrageConfig` used by the
detector and sizer. -/
structure ArbitrageConfig where
  min_edge_bps : ℤ
  max_position_size_usd : ℚ
  use_dynamic_sizing : Bool
  kelly_fraction : ℚ
  min_position_pct : ℚ
  max_position_pct : ℚ
deriving DecidableEq, Repr

/-- From `src/strategies/position_sizing.rs`, `struct PositionSizer`. -/
structure PositionSizer where
  kelly_fraction : ℚ
  max_position_pct : ℚ
  min_position_pct : ℚ
deriving DecidableEq, Repr

/-- `PositionSizer::new(kelly_fraction, min_position_pct, max_position_pct)`. -/
def PositionSizer.new (kelly_fraction min_position_pct max_position_pct : ℚ) :
    PositionSizer :=
  { kelly_fraction, min_position_pct, max_position_pct }

/-- `PositionSizer::adjust_for_volatility`: unchanged for `volatility <= 0`,
otherwise scaled by `1 - (volatility * 0.5).min(0.5)`. -/
def PositionSizer.adjust_for_volatility (_s : PositionSizer)
    (kelly_fraction volatility : ℚ) : ℚ :=
  if volatility ≤ 0 then kelly_fraction
  else kelly_fraction * (1 - min (volatility * (1/2)) (1/2))

/-- `PositionSizer::apply_risk_limits`: `size_usd.max(min_size).min(max_size)`. -/
def PositionSizer.apply_risk_limits (s : PositionSizer) (size_usd capital : ℚ) : ℚ :=
  min (max size_usd (capital * s.min_position_pct)) (capital * s.max_position_pct)

/-- `PositionSizer::calculate_optimal_size`: fractional-Kelly sizing with a
volatility discount and min/max clamps (`position_sizing.rs`, lines 31-93). -/
def PositionSizer.calculate_optimal_size (s : PositionSizer)
    (edge_bps : ℤ) (win_probability capital volatility : ℚ) : ℚ :=
  if edge_bps ≤ 0 ∨ win_probability ≤ 0 ∨ capital ≤ 0 then 0
  else
    let edge : ℚ := (edge_bps : ℚ) / 10000
    let odds := edge / (1 - edge)
    let p := win_probability
    let q := 1 - p
    let kelly_fraction_raw := (p * odds - q) / odds
    let kelly_fraction_adjusted := kelly_fraction_raw * s.kelly_fraction
    let volatility_adjusted := s.adjust_for_volatility kelly_fraction_adjusted volatility
    let size_usd := capital * volatility_adjusted
    s.apply_risk_limits size_usd capital

/-- `estimate_win_probability` from `position_sizing.rs`. -/
def estimate_win_probability (is_atomic : Bool) (slippage_bps : ℤ) : ℚ :=
  if is_atomic then 98/100
  else max ((9:ℚ)/10 - ((slippage_bps : ℚ) / 10000) * (1/2)) (1/2)

/-- `estimate_volatility` from `position_sizing.rs`: fixed placeholder 0.10. -/
def estimate_volatility (_market_id : String) : ℚ := 1/10

/-- `TradeAction` from `src/strategies/arbitrage.rs`.  The `None` variant is
written `TradeAction.None` to keep the source name. -/
inductive TradeAction where
  | BuyBoth (market_id : String) (yes_price no_price size_usd : ℚ)
      (expected_profit_bps : ℤ)
  | Snipe (market_id : String) (side : String) (price size_usd : ℚ)
  | None
deriving DecidableEq, Repr

/-- `struct ArbitrageStrategy` from `src/strategies/arbitrage.rs`. -/
structure ArbitrageStrategy where
  config : ArbitrageConfig
  position_sizer : Option PositionSizer
deriving DecidableEq, Repr

/-- `ArbitrageStrategy::new`: builds a `PositionSizer` only when
`config.use_dynamic_sizing` is set. -/
def ArbitrageStrategy.new (config : ArbitrageConfig) : ArbitrageStrategy :=
  { config
    position_sizer :=
      if config.use_dynamic_sizing then
        some (PositionSizer.new config.kelly_fraction
          config.min_position_pct config.max_position_pct)
      else
        none }

/-- `FEE_PER_TRADE_BPS` constant inside `check_opportunity`. -/
def FEE_PER_TRADE_BPS : ℤ := 40

/-- `TOTAL_FEE_BPS = FEE_PER_TRADE_BPS * 2` inside `check_opportunity`. -/
def TOTAL_FEE_BPS : ℤ := FEE_PER_TRADE_BPS * 2

/-- `ArbitrageStrategy::calculate_position_size`: fixed
`max_position_size_usd` when no sizer is configured, otherwise Kelly sizing
with the hard-coded `CAPITAL = 1000.0`. -/
def ArbitrageStrategy.calculate_position_size (s : ArbitrageStrategy)
    (edge_bps : ℤ) (market_id : String) (slippage_bps : ℤ) (is_atomic : Bool) : ℚ :=
  match s.position_sizer with
  | Option.none => s.config.max_position_size_usd
  | some sizer =>
      let win_prob := estimate_win_probability is_atomic slippage_bps
      let volatility := estimate_volatility market_id
      sizer.calculate_optimal_size edge_bps win_prob 1000 volatility

/-- `ArbitrageStrategy::check_opportunity` with its sampled diagnostic log
made explicit: `rand_sample` stands for the value drawn by
`rand::random::<f64>()`, and the second component records whether the 0.1%
sample log fired.  The control flow is exactly that of the source: the
early return on `net_spread_bps <= min_edge_bps`, then the price-validity
check, then the `BuyBoth` construction. -/
def ArbitrageStrategy.check_opportunity_logged (s : ArbitrageStrategy)
    (market : MarketData) (rand_sample : ℚ) : TradeAction × Bool :=
  let yes_ask := market.yes_price
  let no_ask := market.no_price
  let total_cost := yes_ask + no_ask
  let spread := 1 - total_cost
  let spread_bps := ftrunc (spread * 10000)
  let net_spread_bps := spread_bps - TOTAL_FEE_BPS
  let sampled := decide (rand_sample < 1/1000)
  if net_spread_bps ≤ s.config.min_edge_bps then
    (TradeAction.None, sampled)
  else if yes_ask ≤ 0 ∨ no_ask ≤ 0 then
    (TradeAction.None, sampled)
  else
    let size_usd := s.calculate_position_size net_spread_bps market.id 0 true
    (TradeAction.BuyBoth market.id yes_ask no_ask size_usd net_spread_bps, sampled)

/-- `ArbitrageStrategy::check_opportunity`: the trade action computed by the
source function (the sampled log does not feed into the result). -/
def ArbitrageStrategy.check_opportunity (s : ArbitrageStrategy)
    (market : MarketData) : TradeAction :=
  (s.check_opportunity_logged market 1).1

/-- From `src/config.rs`, the fields of `RiskConfig` used by the risk
manager. -/
structure RiskConfig where
  max_position_size_pct : ℚ
  max_portfolio_exposure_pct : ℚ
  stop_loss_pct : ℚ
  use_dynamic_sl : Bool
  min_hold_time_secs : ℕ
deriving DecidableEq, Repr

/-- `struct Position` from `src/strategies/risk.rs`. -/
structure Position where
  market_id : String
  trade_id : String
  side : String
  size_usd : ℚ
  entry_price : ℚ
  timestamp : ℕ
deriving DecidableEq, Repr

/-- `struct RiskManager` from `src/strategies/risk.rs`.  The
`HashMap<String, Position>` is modelled as an association list keyed by
market id. -/
structure RiskManager where
  config : RiskConfig
  positions : List (String × Position)
deriving DecidableEq, Repr

/-- `positions.contains_key(market_id)`. -/
def RiskManager.contains_key (rm : RiskManager) (market_id : String) : Bool :=
  rm.positions.any (fun kv => kv.1 == market_id)

/-- `positions.values().map(|p| p.size_usd).sum()`: current aggregate
exposure. -/
def RiskManager.current_exposure (rm : RiskManager) : ℚ :=
  (rm.positions.map (fun kv => kv.2.size_usd)).sum

/-- `RiskManager::max_position_size`: `1000.0 * max_position_size_pct`
(capital hard-coded to $1000). -/
def RiskManager.max_position_size (rm : RiskManager) : ℚ :=
  1000 * rm.config.max_position_size_pct

/-- `RiskManager::validate_entry` (`risk.rs`, lines 32-68): the four entry
gates, in source order. -/
def RiskManager.validate_entry (rm : RiskManager) (market_id : String)
    (size_usd confidence : ℚ) : Bool :=
  if rm.contains_key market_id then false
  else if size_usd > rm.max_position_size then false
  else if rm.current_exposure + size_usd > rm.config.max_portfolio_exposure_pct * 1000
    then false
  else if confidence < 6/10 then false
  else true

/-- `RiskManager::get_dynamic_threshold`: the tiered stop-loss thresholds. -/
def RiskManager.get_dynamic_threshold (rm : RiskManager) (entry_price : ℚ) : ℚ :=
  if entry_price ≥ 9/10 then 3/100
  else if entry_price ≥ 8/10 then 5/100
  else if entry_price ≥ 7/10 then 8/100
  else if entry_price ≥ 6/10 then 12/100
  else rm.config.stop_loss_pct

/-- `RiskManager::check_stop_loss` (`risk.rs`, lines 71-131).  The wall-clock
read `SystemTime::now()` is made an explicit parameter `now`; the `u64`
`saturating_sub` is `ℕ` subtraction. -/
def RiskManager.check_stop_loss (rm : RiskManager) (now : ℕ)
    (position : Position) (current_price : ℚ) : Bool :=
  let held_secs := now - position.timestamp
  if held_secs < rm.config.min_hold_time_secs then false
  else
    let pnl_pct := (current_price - position.entry_price) / position.entry_price
    let threshold :=
      if rm.config.use_dynamic_sl then rm.get_dynamic_threshold position.entry_price
      else rm.config.stop_loss_pct
    if pnl_pct < -threshold then true else false

/-- From `src/config.rs`, the `MarketFilters` minimums used by
`Sniper::passes_filters`. -/
structure MarketFilters where
  min_market_volume : ℚ
  min_liquidity : ℚ
  min_24h_volume : ℚ
deriving DecidableEq, Repr

/-- `pat.isPrefixOf s` on character lists, written with decidable equality. -/
def isPref : List Char → List Char → Bool
  | [], _ => true
  | _ :: _, [] => false
  | c :: cs, d :: ds => if c = d then isPref cs ds else false

/-- Substring search on character lists: does `pat` occur contiguously in
`s`?  Mirrors Rust's `str::contains`. -/
def containsSub (s pat : List Char) : Bool :=
  match s with
  | [] => pat.isEmpty
  | _ :: cs => isPref pat s || containsSub cs pat

/-- Rust's `String::contains(pat)` on the model's strings. -/
def strContains (s pat : String) : Bool :=
  containsSub s.data pat.data

/-- The marker substring tested by `Sniper::passes_filters`. -/
def loadingMarker : String := "Loading Metadata"

/-- `Sniper::passes_filters` (`sniper.rs`, lines 686-718): synthetic markets
(question contains the loading marker) bypass all filters; otherwise the
three configured minimums are checked in turn. -/
def passes_filters (f : MarketFilters) (market : MarketData) : Bool :=
  if strContains market.question loadingMarker then true
  else if market.volume < f.min_market_volume then false
  else if market.liquidity < f.min_liquidity then false
  else if market.volume_24h < f.min_24h_volume then false
  else true

/-- The synthetic `MarketData` entry built in `Sniper::run` (`sniper.rs`,
lines 325-343) when a new on-chain market event arrives, with the two
derived token ids passed in (the keccak-based derivation itself is outside
the decision core). -/
def synthetic_market (condition_id yes_id no_id : String) : MarketData :=
  { id := condition_id
    question := "⌛ Loading Metadata (" ++ condition_id ++ ")"
    end_date := some "Unknown"
    description := Option.none
    volume := 0
    liquidity := 0
    yes_price := 0
    no_price := 0
    volume_24h := 0
    best_bid := 0
    best_ask := 0
    order_book_imbalance := 0
    asset_ids := [no_id, yes_id] }

/-! ## Concrete fixtures used by witnesses and counterexamples -/

/-- A fixed-size strategy configuration (min edge 200 bps, fixed $100). -/
def cfg200 : ArbitrageConfig :=
  { min_edge_bps := 200, max_position_size_usd := 100,
    use_dynamic_sizing := false, kelly_fraction := 1/4,
    min_position_pct := 1/100, max_position_pct := 1/10 }

/-- The spec's worked example market: `yes = 0.40`, `no = 0.40`. -/
def mkt44 : MarketData :=
  { id := "m44", question := "q44", end_date := Option.none,
    volume := 0, liquidity := 0, volume_24h := 0,
    yes_price := 2/5, no_price := 2/5, description := Option.none,
    order_book_imbalance := 0, best_bid := 0, best_ask := 0, asset_ids := [] }

/-- A static-stop-loss risk configuration (`stop_loss_pct = 0.05`,
`min_hold_time_secs = 10`). -/
def rmStatic : RiskManager :=
  { config :=
      { max_position_size_pct := 1/10, max_portfolio_exposure_pct := 1/2,
        stop_loss_pct := 5/100, use_dynamic_sl := false, min_hold_time_secs := 10 },
    positions := [] }

/-- A position entered at `entry_price = 0.50` at time 0. -/
def posHalf : Position :=
  { market_id := "m1", trade_id := "t1", side := "YES",
    size_usd := 50, entry_price := 1/2, timestamp := 0 }

/-! ## C5: the four entry gates of `validate_entry` -/

/-- C5.  `RiskManager::validate_entry` accepts exactly when no position is
already held for the market, the requested size does not exceed the
configured max-position fraction of capital, the aggregate exposure plus the
requested size stays within the configured exposure cap, and confidence is
at least 0.6; it rejects whenever any of the four gates fails. -/
theorem validate_entry_iff (rm : RiskManager) (market_id : String)
    (size_usd confidence : ℚ) :
    rm.validate_entry market_id size_usd confidence = true ↔
      (rm.contains_key market_id = false ∧
       size_usd ≤ rm.max_position_size ∧
       rm.current_exposure + size_usd ≤ rm.config.max_portfolio_exposure_pct * 1000 ∧
       6/10 ≤ confidence) := by
  simp only [RiskManager.validate_entry]
  split_ifs with h1 h2 h3 h4
  · simp [h1]
  · simp only [Bool.false_eq_true, false_iff]
    rintro ⟨-, hle, -, -⟩
    linarith
  · simp only [Bool.false_eq_true, false_iff]
    rintro ⟨-, -, hle, -⟩
    linarith
  · simp only [Bool.false_eq_true, false_iff]
    rintro ⟨-, -, -, hle⟩
    linarith
  · simp only [true_iff]
    exact ⟨by simpa using h1, by linarith, by linarith, by linarith⟩

/-- Witness for C5: with no open positions, cap 0.5, max fraction 0.1, a
$50 request at confidence 0.9 passes all four gates. -/
theorem validate_entry_iff_witness :
    rmStatic.validate_entry "mX" 50 (9/10) = true := by
  refine (validate_entry_iff rmStatic "mX" 50 (9/10)).mpr ?_
  refine ⟨rfl, ?_, ?_, by norm_num⟩ <;>
    norm_num [rmStatic, RiskManager.max_position_size, RiskManager.current_exposure]

/-! ## C6: non-positive prices always yield `None` -/

/-- C6.  Whenever either side's price is non-positive, `check_opportunity`
returns `TradeAction.None` (either through the early fee-threshold return
or through the explicit price-validity check). -/
theorem check_opportunity_nonpositive_none (s : ArbitrageStrategy)
    (m : MarketData) (h : m.yes_price ≤ 0 ∨ m.no_price ≤ 0) :
    s.check_opportunity m = TradeAction.None := by
  simp only [ArbitrageStrategy.check_opportunity,
    ArbitrageStrategy.check_opportunity_logged]
  split_ifs <;> simp_all

/-- Witness for C6: the synthetic bootstrap market carries zero prices and
the detector returns `None` on it. -/
theorem check_opportunity_nonpositive_none_witness :
    (ArbitrageStrategy.new cfg200).check_opportunity
      (synthetic_market "c1" "y" "n") = TradeAction.None :=
  check_opportunity_nonpositive_none (ArbitrageStrategy.new cfg200)
    (synthetic_market "c1" "y" "n") (Or.inl (by norm_num [synthetic_market]))

/-! ## C8: determinism of the detector -/

/-- C8.  The detector's returned `TradeAction` does not depend on the value
drawn for the 0.1% diagnostic sample, and any two evaluations on the same
snapshot agree (the function reads no mutable state). -/
theorem check_opportunity_deterministic (s : ArbitrageStrategy)
    (m : MarketData) (r₁ r₂ : ℚ) :
    (s.check_opportunity_logged m r₁).1 = (s.check_opportunity_logged m r₂).1 ∧
    (s.check_opportunity_logged m r₁).1 = s.check_opportunity m := by
  simp only [ArbitrageStrategy.check_opportunity,
    ArbitrageStrategy.check_opportunity_logged]
  split_ifs <;> simp

/-! ## C2: stop-loss gated by hold time, then by pnl threshold -/

/-- C2.  `check_stop_loss` never triggers while the elapsed hold time is
below `min_hold_time_secs`; once the minimum hold has elapsed it triggers
exactly when `(current - entry)/entry < -threshold`, with the threshold the
flat `stop_loss_pct` in static mode and the entry-price tier (with its
low-price fallback to `stop_loss_pct`) in dynamic mode. -/
theorem check_stop_loss_spec (rm : RiskManager) (now : ℕ)
    (pos : Position) (cur : ℚ) :
    (now - pos.timestamp < rm.config.min_hold_time_secs →
      rm.check_stop_loss now pos cur = false) ∧
    (rm.config.min_hold_time_secs ≤ now - pos.timestamp →
      (rm.check_stop_loss now pos cur = true ↔
        (cur - pos.entry_price) / pos.entry_price <
          -(if rm.config.use_dynamic_sl then
              rm.get_dynamic_threshold pos.entry_price
            else rm.config.stop_loss_pct))) := by
  simp only [RiskManager.check_stop_loss]
  constructor
  · intro h
    simp [h]
  · intro h
    rw [if_neg (by omega)]
    split_ifs <;> simp_all [not_lt]

/-- Witness for C2: entry 0.50 with flat 5% stop, held 100s ≥ 10s — the
stop fires at 0.47 (pnl −6%) and does not fire at 0.49 (pnl −2%). -/
theorem check_stop_loss_spec_witness :
    rmStatic.check_stop_loss 100 posHalf (47/100) = true ∧
    rmStatic.check_stop_loss 100 posHalf (49/100) = false := by
  constructor
  · exact ((check_stop_loss_spec rmStatic 100 posHalf (47/100)).2
      (by norm_num [rmStatic, posHalf])).mpr
      (by norm_num [rmStatic, posHalf])
  · have h := (check_stop_loss_spec rmStatic 100 posHalf (49/100)).2
      (by norm_num [rmStatic, posHalf])
    cases hb : rmStatic.check_stop_loss 100 posHalf (49/100) with
    | false => rfl
    | true => exact absurd (h.mp hb) (by norm_num [rmStatic, posHalf])

/-! ## C1: when exactly the detector fires -/

/-- Detector configuration with a 10 bps minimum edge, for the boundary
counterexample. -/
def cfgC1 : ArbitrageConfig :=
  { min_edge_bps := 10, max_position_size_usd := 50,
    use_dynamic_sizing := false, kelly_fraction := 1/4,
    min_position_pct := 1/100, max_position_pct := 1/10 }

/-- A market whose prices sum to 0.99095, i.e. a raw spread of 90.5 bps. -/
def mktC1 : MarketData :=
  { id := "c1x", question := "qc1", end_date := Option.none,
    volume := 0, liquidity := 0, volume_24h := 0,
    yes_price := 1/2, no_price := 9819/20000, description := Option.none,
    order_book_imbalance := 0, best_bid := 0, best_ask := 0, asset_ids := [] }

/-- Counterexample to C1 as stated: with fee 80 bps and `min_edge_bps = 10`,
the prices `yes = 0.5`, `no = 0.49095` satisfy the claim's firing condition
`yes + no < 1 - 80/10000 - 10/10000` (0.99095 < 0.991), yet the code
truncates the 90.5 bps spread to 90, leaving a net of 10 ≤ 10, and
returns `None`. -/
theorem check_opportunity_claim_cex :
    mktC1.yes_price + mktC1.no_price < 1 - 80/10000 - ((10:ℚ)/10000) ∧
    (ArbitrageStrategy.new cfgC1).config.min_edge_bps = 10 ∧
    (ArbitrageStrategy.new cfgC1).check_opportunity mktC1 = TradeAction.None := by
  refine ⟨by norm_num [mktC1], rfl, ?_⟩
  norm_num [ArbitrageStrategy.check_opportunity,
    ArbitrageStrategy.check_opportunity_logged, mktC1, cfgC1,
    ArbitrageStrategy.new, ftrunc, TOTAL_FEE_BPS, FEE_PER_TRADE_BPS]

/-- C1 (amended).  `check_opportunity` returns a `BuyBoth` signal exactly
when both prices are positive and the integer-truncated spread
`trunc((1 - (yes + no)) * 10000)` minus the fixed 80 bps round-trip fee
strictly exceeds `min_edge_bps`; the reported edge is that truncated net
value, and in every other case the result is `None`. -/
theorem check_opportunity_fires_iff (s : ArbitrageStrategy) (m : MarketData) :
    (s.check_opportunity m =
        TradeAction.BuyBoth m.id m.yes_price m.no_price
          (s.calculate_position_size
            (ftrunc ((1 - (m.yes_price + m.no_price)) * 10000) - TOTAL_FEE_BPS)
            m.id 0 true)
          (ftrunc ((1 - (m.yes_price + m.no_price)) * 10000) - TOTAL_FEE_BPS) ↔
      (0 < m.yes_price ∧ 0 < m.no_price ∧
        s.config.min_edge_bps <
          ftrunc ((1 - (m.yes_price + m.no_price)) * 10000) - TOTAL_FEE_BPS)) ∧
    (¬(0 < m.yes_price ∧ 0 < m.no_price ∧
        s.config.min_edge_bps <
          ftrunc ((1 - (m.yes_price + m.no_price)) * 10000) - TOTAL_FEE_BPS) →
      s.check_opportunity m = TradeAction.None) := by
  simp only [ArbitrageStrategy.check_opportunity,
    ArbitrageStrategy.check_opportunity_logged]
  split_ifs with h1 h2
  · refine ⟨⟨fun hco => ?_, fun hrhs => absurd hrhs.2.2 (not_lt.mpr h1)⟩,
      fun _ => rfl⟩
    simp at hco
  · refine ⟨⟨fun hco => ?_, fun hrhs => ?_⟩, fun _ => rfl⟩
    · simp at hco
    · rcases h2 with h | h
      · exact absurd hrhs.1 (not_lt.mpr h)
      · exact absurd hrhs.2.1 (not_lt.mpr h)
  · push_neg at h1 h2
    exact ⟨⟨fun _ => ⟨h2.1, h2.2, h1⟩, fun _ => rfl⟩,
      fun hn => absurd ⟨h2.1, h2.2, h1⟩ hn⟩

/-- Witness for the amended C1: on `yes = no = 0.40` with min edge 200 bps
the detector fires with the truncated net edge 1920 bps and the fixed $100
size. -/
theorem check_opportunity_fires_iff_witness :
    (ArbitrageStrategy.new cfg200).check_opportunity mkt44 =
      TradeAction.BuyBoth "m44" (2/5) (2/5) 100 1920 := by
  have h := (check_opportunity_fires_iff (ArbitrageStrategy.new cfg200) mkt44).1.mpr
    (by norm_num [mkt44, cfg200, ArbitrageStrategy.new, ftrunc,
      TOTAL_FEE_BPS, FEE_PER_TRADE_BPS])
  refine h.trans ?_
  norm_num [mkt44, cfg200, ArbitrageStrategy.new,
    ArbitrageStrategy.calculate_position_size, ftrunc,
    TOTAL_FEE_BPS, FEE_PER_TRADE_BPS]

/-! ## C9: market filtering and the synthetic-market bypass -/

theorem isPref_append_self (pat rest : List Char) :
    isPref pat (pat ++ rest) = true := by
  induction pat with
  | nil => rfl
  | cons c cs ih => simp [isPref, ih]

theorem containsSub_of_isPref {s pat : List Char} (h : isPref pat s = true) :
    containsSub s pat = true := by
  cases s with
  | nil =>
      cases pat with
      | nil => rfl
      | cons d ds => simp [isPref] at h
  | cons c cs => simp [containsSub, h]

theorem containsSub_append_left (pre : List Char) {s pat : List Char}
    (h : containsSub s pat = true) : containsSub (pre ++ s) pat = true := by
  induction pre with
  | nil => simpa using h
  | cons c cs ih => simp [containsSub, ih]

/-- Any question of the shape built by the synthetic-market bootstrap
contains the loading marker. -/
theorem strContains_loading_of_append (cid : String) :
    strContains ("⌛ Loading Metadata (" ++ cid ++ ")") loadingMarker = true := by
  unfold strContains
  have h0 : ("⌛ Loading Metadata (").data
      = "⌛ ".data ++ (loadingMarker.data ++ " (".data) := by decide
  have hsplit : ("⌛ Loading Metadata (" ++ cid ++ ")").data
      = "⌛ ".data ++ (loadingMarker.data ++ (" (".data ++ (cid.data ++ ")".data))) := by
    simp only [String.data_append, h0, List.append_assoc]
    simp [loadingMarker]
  rw [hsplit]
  exact containsSub_append_left _ (containsSub_of_isPref (isPref_append_self _ _))

/-- C9.  `passes_filters` lets any market whose question carries the
loading marker through unconditionally; a non-synthetic market passes
exactly when its volume, liquidity and 24h volume each reach the
configured minimums; and every market built by the synthetic bootstrap
passes regardless of its (zeroed) statistics. -/
theorem passes_filters_spec (f : MarketFilters) (m : MarketData) :
    (strContains m.question loadingMarker = true → passes_filters f m = true) ∧
    (strContains m.question loadingMarker = false →
      (passes_filters f m = true ↔
        (f.min_market_volume ≤ m.volume ∧ f.min_liquidity ≤ m.liquidity ∧
         f.min_24h_volume ≤ m.volume_24h))) ∧
    (∀ cid yid nid, passes_filters f (synthetic_market cid yid nid) = true) := by
  refine ⟨fun h => by simp [passes_filters, h], fun h => ?_, fun cid yid nid => ?_⟩
  · simp only [passes_filters, h, Bool.false_eq_true, if_false]
    split_ifs with hv hl h24
    · simp only [Bool.false_eq_true, false_iff]
      rintro ⟨hh, -, -⟩
      linarith
    · simp only [Bool.false_eq_true, false_iff]
      rintro ⟨-, hh, -⟩
      linarith
    · simp only [Bool.false_eq_true, false_iff]
      rintro ⟨-, -, hh⟩
      linarith
    · simp only [true_iff]
      exact ⟨by linarith, by linarith, by linarith⟩
  · have h := strContains_loading_of_append cid
    simp [passes_filters, synthetic_market, h]

/-- Filter minimums used by the C9 witness. -/
def filtersW : MarketFilters :=
  { min_market_volume := 1000, min_liquidity := 500, min_24h_volume := 100 }

/-- Witness for C9: a synthetic market passes strict minimums it does not
meet, while the ordinary market `mkt44` (all statistics zero) is rejected
by the same minimums. -/
theorem passes_filters_spec_witness :
    passes_filters filtersW (synthetic_market "c9" "y" "n") = true ∧
    passes_filters filtersW mkt44 = false := by
  constructor
  · exact (passes_filters_spec filtersW (synthetic_market "c9" "y" "n")).2.2 "c9" "y" "n"
  · have hiff := (passes_filters_spec filtersW mkt44).2.1 (by decide)
    cases hb : passes_filters filtersW mkt44 with
    | false => rfl
    | true => exact absurd (hiff.mp hb).1 (by norm_num [filtersW, mkt44])

/-! ## C10: fixed sizing when dynamic sizing is disabled -/

/-- C10.  When the strategy is built with `use_dynamic_sizing = false` (so no
`PositionSizer` exists), every `BuyBoth` signal the detector emits carries
exactly the configured `max_position_size_usd`. -/
theorem fixed_sizing_constant_size (cfg : ArbitrageConfig) (m : MarketData)
    (hdyn : cfg.use_dynamic_sizing = false)
    (mid : String) (yp np sz : ℚ) (e : ℤ)
    (h : (ArbitrageStrategy.new cfg).check_opportunity m =
      TradeAction.BuyBoth mid yp np sz e) :
    sz = cfg.max_position_size_usd := by
  simp only [ArbitrageStrategy.check_opportunity,
    ArbitrageStrategy.check_opportunity_logged] at h
  split_ifs at h
  simp_all [ArbitrageStrategy.calculate_position_size, ArbitrageStrategy.new]

/-- Witness for C10: the fixed-size strategy `cfg200` fires on `mkt44` with
size $100, which the theorem identifies with `max_position_size_usd`. -/
theorem fixed_sizing_constant_size_witness :
    cfg200.use_dynamic_sizing = false ∧ (100:ℚ) = cfg200.max_position_size_usd := by
  refine ⟨rfl, fixed_sizing_constant_size cfg200 mkt44 rfl "m44" (2/5) (2/5) 100 1920 ?_⟩
  norm_num [ArbitrageStrategy.check_opportunity,
    ArbitrageStrategy.check_opportunity_logged, mkt44, cfg200,
    ArbitrageStrategy.new, ArbitrageStrategy.calculate_position_size,
    ftrunc, TOTAL_FEE_BPS, FEE_PER_TRADE_BPS]

/-! ## C7: order-book helper consistency -/

/-- An order book whose stored ask levels are not sorted by price. -/
def cexBook : OrderBook :=
  { bids := [], asks := [⟨3/5, 1⟩, ⟨1/2, 2⟩], bid_count := 0, ask_count := 2,
    timestamp := 0 }

/-- Counterexample to C7 as stated: `best_ask` simply reads the first stored
level, so on a book whose active ask levels are not sorted it exceeds a
deeper active level (0.6 > 0.5). -/
theorem best_ask_claim_cex :
    cexBook.best_ask = some (3/5) ∧
    cexBook.ask_levels.map OrderLevel.price = [3/5, 1/2] ∧
    ¬((3/5:ℚ) ≤ 1/2) := by
  refine ⟨?_, ?_, by norm_num⟩ <;> rfl

/-- The head level is related to every price in the active prefix when the
mapped prices are sorted by a reflexive relation. -/
theorem headD_price_rel_of_sorted (r : ℚ → ℚ → Prop) (hrefl : ∀ x, r x x)
    (levels : List OrderLevel) (count : ℕ)
    (hs : ((levels.take count).map OrderLevel.price).Sorted r)
    (hc : 0 < count) (p : ℚ)
    (hp : p ∈ (levels.take count).map OrderLevel.price) :
    r (levels.headD default).price p := by
  cases levels with
  | nil => simp at hp
  | cons l rest =>
      obtain ⟨k, rfl⟩ := Nat.exists_eq_succ_of_ne_zero (Nat.pos_iff_ne_zero.mp hc)
      rw [List.take_succ_cons, List.map_cons] at hp hs
      rw [List.headD_cons]
      rcases List.mem_cons.mp hp with h | h
      · rw [h]
        exact hrefl _
      · exact (List.sorted_cons.mp hs).1 p h

/-- C7 (amended).  On an order book whose active ask prices are sorted
non-decreasing and whose active bid prices are sorted non-increasing,
`best_ask` is a lower bound of every active ask price and `best_bid` an
upper bound of every active bid price; unconditionally, the two liquidity
helpers sum the sizes of exactly the active levels. -/
theorem orderbook_helpers_spec (ob : OrderBook)
    (hasks : (ob.ask_levels.map OrderLevel.price).Sorted (· ≤ ·))
    (hbids : (ob.bid_levels.map OrderLevel.price).Sorted (· ≥ ·)) :
    (∀ a p, ob.best_ask = some a → p ∈ ob.ask_levels.map OrderLevel.price → a ≤ p) ∧
    ob.total_ask_liquidity = (ob.ask_levels.map OrderLevel.size).sum ∧
    (∀ b p, ob.best_bid = some b → p ∈ ob.bid_levels.map OrderLevel.price → p ≤ b) ∧
    ob.total_bid_liquidity = (ob.bid_levels.map OrderLevel.size).sum := by
  refine ⟨?_, rfl, ?_, rfl⟩
  · intro a p ha hp
    unfold OrderBook.best_ask at ha
    split_ifs at ha with hc
    have ha' : (ob.asks.headD default).price = a := Option.some.inj ha
    rw [← ha']
    exact headD_price_rel_of_sorted (· ≤ ·) (fun x => le_refl x)
      ob.asks ob.ask_count hasks hc p hp
  · intro b p hb hp
    unfold OrderBook.best_bid at hb
    split_ifs at hb with hc
    have hb' : (ob.bids.headD default).price = b := Option.some.inj hb
    rw [← hb']
    exact headD_price_rel_of_sorted (· ≥ ·) (fun x => le_refl x)
      ob.bids ob.bid_count hbids hc p hp

/-- A well-sorted order book for the C7 witness. -/
def wBook : OrderBook :=
  { bids := [⟨2/5, 4⟩], asks := [⟨1/2, 2⟩, ⟨3/5, 1⟩],
    bid_count := 1, ask_count := 2, timestamp := 0 }

/-- Witness for the amended C7 on a sorted two-level book: the best ask
bounds the deeper level and the ask liquidity sums to 3. -/
theorem orderbook_helpers_spec_witness :
    (1/2:ℚ) ≤ 3/5 ∧ wBook.total_ask_liquidity = 3 := by
  have h := orderbook_helpers_spec wBook
    (by simp [wBook, OrderBook.ask_levels, List.sorted_cons]; norm_num)
    (by simp [wBook, OrderBook.bid_levels, List.sorted_cons])
  refine ⟨h.1 (1/2) (3/5) ?_ ?_, h.2.1.trans ?_⟩
  · rfl
  · simp [wBook, OrderBook.ask_levels]
  · norm_num [wBook, OrderBook.ask_levels]

/-! ## C4: the sizing pipeline formula -/

/-- The sizing pipeline exactly as the spec words it: degenerate guard,
`odds = edge/(1-edge)`, `raw = (p*odds - (1-p))/odds`, the fractional-Kelly
multiplier, the volatility discount `1 - min(0.5, volatility * 0.5)`,
conversion to dollars by `capital`, and the `[capital*min_pct,
capital*max_pct]` clamp.  (Stated from the spec, for comparison with the
code.) -/
def kelly_pipeline_claim (kf minp maxp : ℚ) (edge_bps : ℤ) (p c v : ℚ) : ℚ :=
  if edge_bps ≤ 0 ∨ p ≤ 0 ∨ c ≤ 0 then 0
  else
    let edge : ℚ := (edge_bps : ℚ) / 10000
    let odds := edge / (1 - edge)
    let raw := (p * odds - (1 - p)) / odds
    let dollars := c * (raw * kf * (1 - min (1/2) (v * (1/2))))
    min (max dollars (c * minp)) (c * maxp)

/-- The same pipeline with the volatility discount applied only for
positive volatility (for `volatility ≤ 0` the factor is 1), which is how
the code short-circuits `adjust_for_volatility`. -/
def kelly_pipeline_amended (kf minp maxp : ℚ) (edge_bps : ℤ) (p c v : ℚ) : ℚ :=
  if edge_bps ≤ 0 ∨ p ≤ 0 ∨ c ≤ 0 then 0
  else
    let edge : ℚ := (edge_bps : ℚ) / 10000
    let odds := edge / (1 - edge)
    let raw := (p * odds - (1 - p)) / odds
    let dollars := c * (raw * kf * (1 - min (1/2) (max v 0 * (1/2))))
    min (max dollars (c * minp)) (c * maxp)

/-- A sizer with full Kelly and wide clamps, exposing the volatility
discount. -/
def sizerC4 : PositionSizer := PositionSizer.new 1 0 10

/-- Counterexample to C4 as stated: at volatility −0.2 the claimed discount
`1 - min(0.5, v*0.5)` is 1.1, so the claimed pipeline yields $660, while the
code leaves the Kelly fraction unchanged for non-positive volatility and
yields $600. -/
theorem kelly_pipeline_claim_cex :
    sizerC4.calculate_optimal_size 500 (98/100) 1000 (-(1/5)) = 600 ∧
    kelly_pipeline_claim sizerC4.kelly_fraction sizerC4.min_position_pct
      sizerC4.max_position_pct 500 (98/100) 1000 (-(1/5)) = 660 ∧
    (600:ℚ) ≠ 660 := by
  refine ⟨?_, ?_, by norm_num⟩
  · norm_num [sizerC4, PositionSizer.new, PositionSizer.calculate_optimal_size,
      PositionSizer.adjust_for_volatility, PositionSizer.apply_risk_limits]
  · norm_num [sizerC4, PositionSizer.new, kelly_pipeline_claim]

/-- C4 (amended).  `calculate_optimal_size` equals the claimed Kelly
pipeline once the volatility discount is restricted to positive
volatility: degenerate inputs give 0, and otherwise the raw Kelly fraction
is scaled by the configured multiplier, discounted by
`1 - min(0.5, max(volatility,0) * 0.5)`, converted to dollars and clamped. -/
theorem calculate_optimal_size_eq_pipeline (s : PositionSizer) (e : ℤ) (p c v : ℚ) :
    s.calculate_optimal_size e p c v =
      kelly_pipeline_amended s.kelly_fraction s.min_position_pct
        s.max_position_pct e p c v := by
  simp only [PositionSizer.calculate_optimal_size, kelly_pipeline_amended,
    PositionSizer.adjust_for_volatility, PositionSizer.apply_risk_limits]
  split_ifs with hdeg hv
  · rfl
  · rw [max_eq_right hv]
    norm_num
  · rw [max_eq_left (le_of_lt (lt_of_not_le hv)), min_comm (v * (1/2)) ((1:ℚ)/2)]

/-! ## C3: monotonicity and range of the position sizer -/

/-- The raw Kelly fraction computed inside `calculate_optimal_size`, as a
function of the integer edge (proof abbreviation for the code's
`(p * odds - q) / odds` with `odds = edge/(1-edge)`, `edge = edge_bps/10000`). -/
def kellyRaw (p : ℚ) (e : ℤ) : ℚ :=
  (p * ((e:ℚ)/10000 / (1 - (e:ℚ)/10000)) - (1 - p)) /
    ((e:ℚ)/10000 / (1 - (e:ℚ)/10000))

theorem kellyRaw_eq (p : ℚ) (e : ℤ) (h1 : 0 < e) (h2 : e < 10000) :
    kellyRaw p e = p - (1 - p) * ((10000 - (e:ℚ)) / (e:ℚ)) := by
  have he : ((e:ℚ)) ≠ 0 := ne_of_gt (by exact_mod_cast h1)
  have hlt : ((e:ℚ)) < 10000 := by exact_mod_cast h2
  have h1e : (1:ℚ) - (e:ℚ)/10000 ≠ 0 := by
    have hx : (e:ℚ)/10000 < 1 := by linarith
    exact sub_ne_zero.mpr hx.ne'
  have h2e : (10000:ℚ) - (e:ℚ) ≠ 0 := sub_ne_zero.mpr (ne_of_gt hlt)
  unfold kellyRaw
  field_simp
  ring

theorem kellyRaw_mono (p : ℚ) (hp1 : p ≤ 1) {e₁ e₂ : ℤ}
    (h1 : 0 < e₁) (h12 : e₁ ≤ e₂) (h2 : e₂ < 10000) :
    kellyRaw p e₁ ≤ kellyRaw p e₂ := by
  rw [kellyRaw_eq p e₁ h1 (lt_of_le_of_lt h12 h2),
    kellyRaw_eq p e₂ (lt_of_lt_of_le h1 h12) h2]
  have he₁ : (0:ℚ) < (e₁:ℚ) := by exact_mod_cast h1
  have he₂ : (0:ℚ) < (e₂:ℚ) := by exact_mod_cast lt_of_lt_of_le h1 h12
  have h12' : ((e₁:ℚ)) ≤ (e₂:ℚ) := by exact_mod_cast h12
  have hq : (0:ℚ) ≤ 1 - p := by linarith
  have hdiv : (10000 - (e₂:ℚ)) / (e₂:ℚ) ≤ (10000 - (e₁:ℚ)) / (e₁:ℚ) := by
    rw [div_le_div_iff₀ he₂ he₁]
    nlinarith
  nlinarith [mul_le_mul_of_nonneg_left hdiv hq]

theorem adjust_for_volatility_mono (s : PositionSizer) (v k₁ k₂ : ℚ)
    (h : k₁ ≤ k₂) :
    s.adjust_for_volatility k₁ v ≤ s.adjust_for_volatility k₂ v := by
  unfold PositionSizer.adjust_for_volatility
  split_ifs with hv
  · exact h
  · have hf : (0:ℚ) ≤ 1 - min (v * (1/2)) (1/2) := by
      have := min_le_right (v * (1/2)) ((1:ℚ)/2)
      linarith
    exact mul_le_mul_of_nonneg_right h hf

theorem calculate_optimal_size_range (s : PositionSizer) (e : ℤ) (p c v : ℚ)
    (hminmax : s.min_position_pct ≤ s.max_position_pct)
    (he : 0 < e) (hp : 0 < p) (hc : 0 < c) :
    c * s.min_position_pct ≤ s.calculate_optimal_size e p c v ∧
    s.calculate_optimal_size e p c v ≤ c * s.max_position_pct := by
  simp only [PositionSizer.calculate_optimal_size, PositionSizer.apply_risk_limits]
  rw [if_neg (by push_neg; exact ⟨he, hp, hc⟩)]
  constructor
  · exact le_min (le_max_right _ _) (mul_le_mul_of_nonneg_left hminmax hc.le)
  · exact min_le_right _ _

/-- C3 (amended).  With a non-negative Kelly multiplier and sane clamps
(`0 ≤ min_pct ≤ max_pct`), a genuine probability `0 < p ≤ 1` and positive
capital, `calculate_optimal_size` is monotone non-decreasing in `edge_bps`
on the whole range below 10000 bps, and for positive edges its output lies
in `[capital*min_pct, capital*max_pct]` (degenerate edges return 0). -/
theorem calculate_optimal_size_mono_range (s : PositionSizer) (p c v : ℚ)
    (e₁ e₂ : ℤ)
    (hk : 0 ≤ s.kelly_fraction) (hmin0 : 0 ≤ s.min_position_pct)
    (hminmax : s.min_position_pct ≤ s.max_position_pct)
    (hp : 0 < p) (hp1 : p ≤ 1) (hc : 0 < c)
    (h12 : e₁ ≤ e₂) (hlt : e₂ < 10000) :
    s.calculate_optimal_size e₁ p c v ≤ s.calculate_optimal_size e₂ p c v ∧
    (0 < e₁ →
      c * s.min_position_pct ≤ s.calculate_optimal_size e₁ p c v ∧
      s.calculate_optimal_size e₁ p c v ≤ c * s.max_position_pct) := by
  constructor
  · rcases le_or_lt e₁ 0 with h1 | h1
    · have hL : s.calculate_optimal_size e₁ p c v = 0 := by
        simp only [PositionSizer.calculate_optimal_size]
        rw [if_pos (Or.inl h1)]
      rw [hL]
      rcases le_or_lt e₂ 0 with h2 | h2
      · have hR : s.calculate_optimal_size e₂ p c v = 0 := by
          simp only [PositionSizer.calculate_optimal_size]
          rw [if_pos (Or.inl h2)]
        rw [hR]
      · have hr := calculate_optimal_size_range s e₂ p c v hminmax h2 hp hc
        have hmn : (0:ℚ) ≤ c * s.min_position_pct := mul_nonneg hc.le hmin0
        linarith [hr.1]
    · have h2 : 0 < e₂ := lt_of_lt_of_le h1 h12
      simp only [PositionSizer.calculate_optimal_size]
      rw [if_neg (by push_neg; exact ⟨h1, hp, hc⟩),
        if_neg (by push_neg; exact ⟨h2, hp, hc⟩)]
      show s.apply_risk_limits
          (c * s.adjust_for_volatility (kellyRaw p e₁ * s.kelly_fraction) v) c ≤
        s.apply_risk_limits
          (c * s.adjust_for_volatility (kellyRaw p e₂ * s.kelly_fraction) v) c
      have hraw := kellyRaw_mono p hp1 h1 h12 hlt
      have hadj := mul_le_mul_of_nonneg_right hraw hk
      have hvol := adjust_for_volatility_mono s v _ _ hadj
      have hsz := mul_le_mul_of_nonneg_left hvol hc.le
      simp only [PositionSizer.apply_risk_limits]
      exact min_le_min (max_le_max hsz le_rfl) le_rfl
  · intro h1
    exact calculate_optimal_size_range s e₁ p c v hminmax h1 hp hc

/-- The quarter-Kelly sizer of the spec's worked example. -/
def sizerW : PositionSizer := PositionSizer.new (1/4) (1/100) (1/10)

/-- Counterexample to C3 as stated: with `p = 0.98 > 0`, `capital = 1000 >
0` fixed, the output at `edge_bps = 0` is 0, strictly below the claimed
lower clamp `capital*min_pct = 10`; and from `edge_bps = 9999` (output
$100) to `edge_bps = 10000` (output $10, the `edge = 1` degeneracy) the
output strictly decreases, refuting unrestricted monotonicity. -/
theorem calculate_optimal_size_claim_cex :
    (sizerW.calculate_optimal_size 0 (98/100) 1000 (1/10) = 0 ∧
      ¬(1000 * sizerW.min_position_pct ≤
          sizerW.calculate_optimal_size 0 (98/100) 1000 (1/10))) ∧
    ¬(sizerW.calculate_optimal_size 9999 (98/100) 1000 (1/10) ≤
        sizerW.calculate_optimal_size 10000 (98/100) 1000 (1/10)) := by
  refine ⟨⟨?_, ?_⟩, ?_⟩ <;>
    norm_num [sizerW, PositionSizer.new, PositionSizer.calculate_optimal_size,
      PositionSizer.adjust_for_volatility, PositionSizer.apply_risk_limits]

/-- Witness for the amended C3 at the spec's example parameters: output is
monotone from 200 to 300 bps and lies in `[10, 100]` at 200 bps. -/
theorem calculate_optimal_size_mono_range_witness :
    sizerW.calculate_optimal_size 200 (95/100) 1000 (1/10) ≤
      sizerW.calculate_optimal_size 300 (95/100) 1000 (1/10) ∧
    1000 * sizerW.min_position_pct ≤
      sizerW.calculate_optimal_size 200 (95/100) 1000 (1/10) ∧
    sizerW.calculate_optimal_size 200 (95/100) 1000 (1/10) ≤
      1000 * sizerW.max_position_pct := by
  have h := calculate_optimal_size_mono_range sizerW (95/100) 1000 (1/10) 200 300
    (by norm_num [sizerW, PositionSizer.new])
    (by norm_num [sizerW, PositionSizer.new])
    (by norm_num [sizerW, PositionSizer.new])
    (by norm_num) (by norm_num) (by norm_num) (by norm_num) (by norm_num)
  exact ⟨h.1, (h.2 (by norm_num)).1, (h.2 (by norm_num)).2⟩

end PolySniper
